import Mathlib

/-!
Shallow embedding of the rust_snake core: `map.rs` (Map, Tile), `snake.rs`
(Direction, Snake) and `lib.rs` (Game, State, move_snake, create_food,
restart).

Modelling conventions:
* Panicking operations (the asserted bounds checks in `Map.get` / `Map.set`,
  `Vec::remove(0)` on an empty vector, `gen_range` on an empty range) are
  modelled with `Option`; `none` stands for a panic.
* The Rust `isize as usize` cast is reduction modulo `2 ^ 64`
  (`usizeOfIsize`).
* `create_food`'s random sampling (`rng.gen_range(0..W)`) is modelled by an
  explicit stream `s : Nat -> Nat × Nat` of samples, reduced modulo the
  grid dimensions, together with a fuel bound on the rejection loop;
  `none` from exhausted fuel stands for non-termination of the loop.
-/

namespace RustSnake

/-- Tiles contained in the map (`map.rs`, `enum Tile`). -/
inductive Tile
  | Empty
  | Snake
  | Food
deriving DecidableEq

/-- The map (`map.rs`, `struct Map<const W, const H>`): a `W × H` grid of
tiles.  The Rust array `[[Tile; H]; W]` is modelled as a total function;
cells are only ever read or written through the bounds-asserting `get` and
`set`. -/
structure Map (W H : Nat) where
  data : Nat → Nat → Tile

namespace Map

variable {W H : Nat}

/-- `Map::new`: a map filled with `Tile::Empty`. -/
def new (W H : Nat) : Map W H := ⟨fun _ _ => Tile.Empty⟩

/-- `Map::in_bounds`: `x < W && y < H` (arguments are `usize`, hence the
missing lower bounds). -/
def in_bounds (_m : Map W H) (x y : Nat) : Bool :=
  decide (x < W) && decide (y < H)

/-- `Map::get`, with the `assert!(self.in_bounds(x, y))` modelled by
`none` on violation. -/
def get (m : Map W H) (x y : Nat) : Option Tile :=
  if m.in_bounds x y then some (m.data x y) else none

/-- `Map::set`, with the `assert!(self.in_bounds(x, y))` modelled by
`none` on violation. -/
def set (m : Map W H) (x y : Nat) (t : Tile) : Option (Map W H) :=
  if m.in_bounds x y then
    some ⟨fun a b => if a = x ∧ b = y then t else m.data a b⟩
  else
    none

/-- Extensional equality of two maps on the in-bounds cells (the only
cells the Rust code can observe). -/
def eqOn (m₁ m₂ : Map W H) : Prop :=
  ∀ a, a < W → ∀ b, b < H → m₁.data a b = m₂.data a b

instance (m₁ m₂ : Map W H) : Decidable (m₁.eqOn m₂) := by
  unfold eqOn
  infer_instance

/-- Number of `Tile::Food` cells among the in-bounds cells of the map. -/
def foodCount (m : Map W H) : Nat :=
  ∑ p ∈ Finset.range W ×ˢ Finset.range H,
    (if m.data p.1 p.2 = Tile.Food then 1 else 0)

end Map

/-- Directions the snake can face (`snake.rs`, `enum Direction`), with
`None` for a snake that has not started moving. -/
inductive Direction
  | Left
  | Right
  | Up
  | Down
  | None
deriving DecidableEq

namespace Direction

/-- `Direction::x`: the change on the x-axis. -/
def x : Direction → Int
  | .Left => -1
  | .Right => 1
  | _ => 0

/-- `Direction::y`: the change on the y-axis. -/
def y : Direction → Int
  | .Up => -1
  | .Down => 1
  | _ => 0

/-- `Direction::opposite`: `self.x() + dir.x() == 0 && self.y() + dir.y() == 0`. -/
def opposite (a b : Direction) : Bool :=
  decide (a.x + b.x = 0) && decide (a.y + b.y = 0)

end Direction

/-- The Rust `isize as usize` cast: two's-complement reinterpretation,
i.e. reduction modulo `2 ^ 64` on a 64-bit target. -/
def usizeOfIsize (i : Int) : Nat :=
  (i % (2 ^ 64 : Int)).toNat

/-- The snake (`snake.rs`, `struct Snake`): signed head coordinates,
facing direction, target `size`, and the `tail : Vec<(usize, usize)>` of
previously occupied cells, oldest first. -/
structure Snake where
  head : Int × Int
  dir : Direction
  size : Nat
  tail : List (Nat × Nat)

namespace Snake

variable {W H : Nat}

/-- `Snake::new`: head at `(x, y)`, direction `None`, empty tail. -/
def new (x y : Nat) (size : Nat) : Snake :=
  ⟨((x : Int), (y : Int)), Direction.None, size, []⟩

/-- `Snake::x`: the x coordinate of the head. -/
def x (s : Snake) : Int := s.head.1

/-- `Snake::y`: the y coordinate of the head. -/
def y (s : Snake) : Int := s.head.2

/-- `Snake::turn`: set the direction unless the requested one opposes the
current one. -/
def turn (s : Snake) (d : Direction) : Snake :=
  if s.dir.opposite d then s else { s with dir := d }

/-- `Snake::forward`: push the current head (cast `as usize`) onto the end
of the tail, then advance the head by the direction vector. -/
def forward (s : Snake) : Snake :=
  { s with
    tail := s.tail ++ [(usizeOfIsize s.x, usizeOfIsize s.y)]
    head := (s.head.1 + s.dir.x, s.head.2 + s.dir.y) }

/-- `Snake::cut_tail`: if the tail has reached the target size, remove the
oldest tail entry (`Vec::remove(0)`, which panics on an empty vector) and
set that cell back to `Empty` on the map. -/
def cut_tail (s : Snake) (m : Map W H) : Option (Snake × Map W H) :=
  if s.size ≤ s.tail.length then
    match s.tail with
    | [] => none
    | c :: rest =>
      match m.set c.1 c.2 Tile.Empty with
      | none => none
      | some m' => some ({ s with tail := rest }, m')
  else
    some (s, m)

/-- `Snake::touching_tile`: `map.get(self.x() as usize, self.y() as usize)`. -/
def touching_tile (s : Snake) (m : Map W H) : Option Tile :=
  m.get (usizeOfIsize s.x) (usizeOfIsize s.y)

/-- `Snake::place_head`: `map.set(self.x() as usize, self.y() as usize, Tile::Snake)`. -/
def place_head (s : Snake) (m : Map W H) : Option (Map W H) :=
  m.set (usizeOfIsize s.x) (usizeOfIsize s.y) Tile.Snake

/-- `Snake::in_bounds`: both head coordinates non-negative and, after the
cast, inside the map. -/
def in_bounds (s : Snake) (m : Map W H) : Bool :=
  decide (0 ≤ s.x) && decide (0 ≤ s.y)
    && m.in_bounds (usizeOfIsize s.x) (usizeOfIsize s.y)

end Snake

/-- Game states (`lib.rs`, `enum State`). -/
inductive State
  | Running
  | Paused
  | GameOver
deriving DecidableEq

/-- `INITIAL_SNAKE_SIZE` from `lib.rs`. -/
def INITIAL_SNAKE_SIZE : Nat := 3

/-- The rejection-sampling loop of `Game::create_food`, sampling the pair
stream `s` from index `k` on, with explicit fuel.  Each iteration draws
`fx = gen_range(0..W)` and `fy = gen_range(0..H)` (modelled by reducing
the stream values modulo the dimensions), and places `Tile::Food` on the
first sampled cell that `get` reports `Empty`. -/
def createFoodFrom (m : Map W H) (s : Nat → Nat × Nat) : Nat → Nat → Option (Map W H)
  | _, 0 => none
  | k, fuel + 1 =>
    match m.get ((s k).1 % W) ((s k).2 % H) with
    | none => none
    | some Tile.Empty => m.set ((s k).1 % W) ((s k).2 % H) Tile.Food
    | some Tile.Snake => createFoodFrom m s (k + 1) fuel
    | some Tile.Food => createFoodFrom m s (k + 1) fuel

/-- `Game::create_food`, from the start of the sample stream. -/
def createFood (m : Map W H) (s : Nat → Nat × Nat) (fuel : Nat) : Option (Map W H) :=
  createFoodFrom m s 0 fuel

/-- The game (`lib.rs`, `struct Game<const W, const H>`). -/
structure Game (W H : Nat) where
  map : Map W H
  snake : Snake
  state : State

namespace Game

variable {W H : Nat}

/-- `Game::new`: empty map, snake of size 3 at `(W / 2, H / 2)`, head
placed, one food tile created, state `Paused`. -/
def new (W H : Nat) (s : Nat → Nat × Nat) (fuel : Nat) : Option (Game W H) :=
  match (Snake.new (W / 2) (H / 2) INITIAL_SNAKE_SIZE).place_head (Map.new W H) with
  | none => none
  | some m₁ =>
    match createFood m₁ s fuel with
    | none => none
    | some m₂ => some ⟨m₂, Snake.new (W / 2) (H / 2) INITIAL_SNAKE_SIZE, State.Paused⟩

/-- `Game::turn_snake`: delegates to `Snake::turn`. -/
def turn_snake (g : Game W H) (d : Direction) : Game W H :=
  { g with snake := g.snake.turn d }

/-- `Game::game_over`: unconditionally sets the state to `GameOver`. -/
def game_over (g : Game W H) : Game W H :=
  { g with state := State.GameOver }

/-- `Game::move_snake`: forward, cut tail, bounds check, collision check,
consequence, head placement — in exactly the order of the Rust source.
Note that `place_head` runs in every in-bounds branch, including the
self-collision branch, and that `cut_tail` writes to the map before the
bounds check. -/
def move_snake (g : Game W H) (s : Nat → Nat × Nat) (fuel : Nat) : Option (Game W H) :=
  match (g.snake.forward).cut_tail g.map with
  | none => none
  | some (sn₂, m₂) =>
    if sn₂.in_bounds m₂ then
      match sn₂.touching_tile m₂ with
      | none => none
      | some Tile.Snake =>
        match sn₂.place_head m₂ with
        | none => none
        | some m₃ => some ⟨m₃, sn₂, State.GameOver⟩
      | some Tile.Food =>
        match createFood m₂ s fuel with
        | none => none
        | some m₃ =>
          match Snake.place_head { sn₂ with size := sn₂.size + 1 } m₃ with
          | none => none
          | some m₄ => some ⟨m₄, { sn₂ with size := sn₂.size + 1 }, g.state⟩
      | some Tile.Empty =>
        match sn₂.place_head m₂ with
        | none => none
        | some m₃ => some ⟨m₃, sn₂, g.state⟩
    else
      some ⟨m₂, sn₂, State.GameOver⟩

/-- `Game::restart`: the double loop `for x in 0..W { for y in 0..H {
set(x, y, Empty) } }` clears exactly the in-bounds cells; then a fresh
snake is created, its head placed, food created, and the state set to
`Paused`. -/
def restart (g : Game W H) (s : Nat → Nat × Nat) (fuel : Nat) : Option (Game W H) :=
  match (Snake.new (W / 2) (H / 2) INITIAL_SNAKE_SIZE).place_head
      ⟨fun a b => if a < W ∧ b < H then Tile.Empty else g.map.data a b⟩ with
  | none => none
  | some m₁ =>
    match createFood m₁ s fuel with
    | none => none
    | some m₂ => some ⟨m₂, Snake.new (W / 2) (H / 2) INITIAL_SNAKE_SIZE, State.Paused⟩

end Game

/-- Iterated `move_snake`: `picks n` supplies the sample stream and fuel
used by the `n`-th call. -/
def iterMoves (g : Game W H) (picks : Nat → (Nat → Nat × Nat) × Nat) : Nat → Option (Game W H)
  | 0 => some g
  | n + 1 =>
    match iterMoves g picks n with
    | none => none
    | some g' => g'.move_snake (picks n).1 (picks n).2

/-! ### Basic lemmas about the embedded operations -/

namespace Map

variable {W H : Nat}

theorem in_bounds_lt_iff {m : Map W H} {x y : Nat} :
    m.in_bounds x y = true ↔ x < W ∧ y < H := by
  simp [Map.in_bounds]

theorem get_of_lt {m : Map W H} {x y : Nat} (hx : x < W) (hy : y < H) :
    m.get x y = some (m.data x y) := by
  simp [Map.get, Map.in_bounds, hx, hy]

theorem get_eq_some {m : Map W H} {x y : Nat} {t : Tile}
    (h : m.get x y = some t) : x < W ∧ y < H ∧ m.data x y = t := by
  unfold Map.get at h
  split at h
  · rename_i hb
    rw [in_bounds_lt_iff] at hb
    exact ⟨hb.1, hb.2, Option.some.inj h⟩
  · cases h

theorem set_of_lt {m : Map W H} {x y : Nat} {t : Tile} (hx : x < W) (hy : y < H) :
    m.set x y t = some ⟨fun a b => if a = x ∧ b = y then t else m.data a b⟩ := by
  simp [Map.set, Map.in_bounds, hx, hy]

theorem set_eq_some {m : Map W H} {x y : Nat} {t : Tile} {m' : Map W H}
    (h : m.set x y t = some m') :
    x < W ∧ y < H ∧ ∀ a b, m'.data a b = if a = x ∧ b = y then t else m.data a b := by
  unfold Map.set at h
  split at h
  · rename_i hb
    rw [in_bounds_lt_iff] at hb
    refine ⟨hb.1, hb.2, ?_⟩
    injection h with h
    intro a b
    rw [← h]
  · cases h

theorem set_data_self {m : Map W H} {x y : Nat} {t : Tile} {m' : Map W H}
    (h : m.set x y t = some m') : m'.data x y = t := by
  rw [(set_eq_some h).2.2 x y, if_pos ⟨rfl, rfl⟩]

theorem set_data_other {m : Map W H} {x y : Nat} {t : Tile} {m' : Map W H}
    (h : m.set x y t = some m') {a b : Nat} (hab : ¬(a = x ∧ b = y)) :
    m'.data a b = m.data a b := by
  rw [(set_eq_some h).2.2 a b, if_neg hab]

theorem foodCount_set {m : Map W H} {x y : Nat} {t : Tile} {m' : Map W H}
    (h : m.set x y t = some m') :
    m'.foodCount + (if m.data x y = Tile.Food then 1 else 0)
      = m.foodCount + (if t = Tile.Food then 1 else 0) := by
  obtain ⟨hx, hy, hdata⟩ := set_eq_some h
  have hmem : (x, y) ∈ Finset.range W ×ˢ Finset.range H := by
    simp [Finset.mem_product, hx, hy]
  have key : ∀ mm : Map W H,
      mm.foodCount = (if mm.data x y = Tile.Food then 1 else 0)
        + ∑ p ∈ (Finset.range W ×ˢ Finset.range H).erase (x, y),
            (if mm.data p.1 p.2 = Tile.Food then 1 else 0) := by
    intro mm
    exact (Finset.add_sum_erase _ (fun p => if mm.data p.1 p.2 = Tile.Food then 1 else 0)
      hmem).symm
  have hsum :
      (∑ p ∈ (Finset.range W ×ˢ Finset.range H).erase (x, y),
          (if m'.data p.1 p.2 = Tile.Food then 1 else 0))
        = ∑ p ∈ (Finset.range W ×ˢ Finset.range H).erase (x, y),
            (if m.data p.1 p.2 = Tile.Food then (1 : Nat) else 0) := by
    refine Finset.sum_congr rfl ?_
    intro p hp
    have hne : p ≠ (x, y) := Finset.ne_of_mem_erase hp
    have hcond : ¬(p.1 = x ∧ p.2 = y) := by
      intro hc
      exact hne (Prod.ext hc.1 hc.2)
    rw [hdata p.1 p.2, if_neg hcond]
  have hself : m'.data x y = t := by
    rw [hdata x y, if_pos ⟨rfl, rfl⟩]
  rw [key m', key m, hsum, hself]
  omega

theorem foodCount_pos {m : Map W H} {x y : Nat} (hx : x < W) (hy : y < H)
    (h : m.data x y = Tile.Food) : 1 ≤ m.foodCount := by
  have hmem : (x, y) ∈ Finset.range W ×ˢ Finset.range H := by
    simp [Finset.mem_product, hx, hy]
  have := Finset.single_le_sum
    (f := fun p : Nat × Nat => if m.data p.1 p.2 = Tile.Food then (1 : Nat) else 0)
    (fun _ _ => Nat.zero_le _) hmem
  simpa [Map.foodCount, h] using this

end Map

theorem usizeOfIsize_natCast {n : Nat} (h : n < 2 ^ 64) :
    usizeOfIsize (n : Int) = n := by
  unfold usizeOfIsize
  rw [Int.emod_eq_of_lt (by positivity) (by exact_mod_cast h)]
  simp

theorem usizeOfIsize_toNat {i : Int} (h0 : 0 ≤ i) (h : i < 2 ^ 64) :
    usizeOfIsize i = i.toNat := by
  unfold usizeOfIsize
  rw [Int.emod_eq_of_lt h0 (by exact_mod_cast h)]

namespace Snake

variable {W H : Nat}

theorem forward_size (s : Snake) : s.forward.size = s.size := rfl

theorem forward_dir (s : Snake) : s.forward.dir = s.dir := rfl

theorem forward_head (s : Snake) :
    s.forward.head = (s.head.1 + s.dir.x, s.head.2 + s.dir.y) := rfl

theorem forward_tail (s : Snake) :
    s.forward.tail = s.tail ++ [(usizeOfIsize s.x, usizeOfIsize s.y)] := rfl

theorem cut_tail_eq_some {s s' : Snake} {m m' : Map W H}
    (h : s.cut_tail m = some (s', m')) :
    s'.head = s.head ∧ s'.dir = s.dir ∧ s'.size = s.size ∧
      ((∃ c rest, s.tail = c :: rest ∧ s'.tail = rest ∧
          m.set c.1 c.2 Tile.Empty = some m')
        ∨ (s.tail.length < s.size ∧ s' = s ∧ m' = m)) := by
  unfold cut_tail at h
  split at h
  · rename_i hlen
    split at h
    · cases h
    · rename_i c rest hcons
      split at h
      · cases h
      · rename_i m₀ hset
        injection h with h
        injection h with h₁ h₂
        subst h₁
        subst h₂
        exact ⟨rfl, rfl, rfl, Or.inl ⟨c, rest, hcons, rfl, hset⟩⟩
  · rename_i hlen
    injection h with h
    injection h with h₁ h₂
    subst h₁
    subst h₂
    exact ⟨rfl, rfl, rfl, Or.inr ⟨by omega, rfl, rfl⟩⟩

theorem in_bounds_iff {s : Snake} {m : Map W H} :
    s.in_bounds m = true
      ↔ 0 ≤ s.x ∧ 0 ≤ s.y ∧ usizeOfIsize s.x < W ∧ usizeOfIsize s.y < H := by
  simp [Snake.in_bounds, Map.in_bounds, and_assoc]

theorem touching_tile_of_in_bounds {s : Snake} {m : Map W H}
    (h : s.in_bounds m = true) :
    s.touching_tile m = some (m.data (usizeOfIsize s.x) (usizeOfIsize s.y)) := by
  rw [in_bounds_iff] at h
  exact Map.get_of_lt h.2.2.1 h.2.2.2

theorem place_head_of_in_bounds {s : Snake} {m : Map W H}
    (h : s.in_bounds m = true) :
    s.place_head m = some ⟨fun a b =>
      if a = usizeOfIsize s.x ∧ b = usizeOfIsize s.y then Tile.Snake
      else m.data a b⟩ := by
  rw [in_bounds_iff] at h
  exact Map.set_of_lt h.2.2.1 h.2.2.2

theorem cut_tail_cons {sn : Snake} {m m' : Map W H} {c : Nat × Nat}
    {rest : List (Nat × Nat)}
    (htl : sn.tail = c :: rest) (hge : sn.size ≤ sn.tail.length)
    (hset : m.set c.1 c.2 Tile.Empty = some m') :
    sn.cut_tail m = some ({ sn with tail := rest }, m') := by
  unfold cut_tail
  rw [htl] at hge ⊢
  rw [if_pos hge]
  simp [hset]

theorem cut_tail_skip {sn : Snake} {m : Map W H}
    (hlt : sn.tail.length < sn.size) :
    sn.cut_tail m = some (sn, m) := by
  unfold cut_tail
  rw [if_neg (by omega)]

end Snake

section CreateFood

variable {W H : Nat}

theorem createFoodFrom_eq_some {m m' : Map W H} {s : Nat → Nat × Nat} {fuel : Nat} :
    ∀ {k : Nat}, createFoodFrom m s k fuel = some m' →
      ∃ x y, x < W ∧ y < H ∧ m.data x y = Tile.Empty ∧ m.set x y Tile.Food = some m' := by
  induction fuel with
  | zero =>
    intro k h
    cases h
  | succ fuel ih =>
    intro k h
    unfold createFoodFrom at h
    split at h
    · cases h
    · rename_i hget
      obtain ⟨hx, hy, hdata⟩ := Map.get_eq_some hget
      exact ⟨_, _, hx, hy, hdata, h⟩
    · exact ih h
    · exact ih h

theorem createFoodFrom_terminates {m : Map W H} {s : Nat → Nat × Nat} :
    ∀ d k, m.get ((s (k + d)).1 % W) ((s (k + d)).2 % H) = some Tile.Empty →
      ∃ fuel m', createFoodFrom m s k fuel = some m' := by
  intro d
  induction d with
  | zero =>
    intro k h
    rw [Nat.add_zero] at h
    obtain ⟨hx, hy, -⟩ := Map.get_eq_some h
    refine ⟨1, ⟨fun a b =>
      if a = (s k).1 % W ∧ b = (s k).2 % H then Tile.Food else m.data a b⟩, ?_⟩
    unfold createFoodFrom
    rw [h]
    exact Map.set_of_lt hx hy
  | succ d ih =>
    intro k h
    obtain ⟨hx', hy', -⟩ := Map.get_eq_some h
    have hW : 0 < W := lt_of_le_of_lt (Nat.zero_le _) hx'
    have hH : 0 < H := lt_of_le_of_lt (Nat.zero_le _) hy'
    cases hk : m.get ((s k).1 % W) ((s k).2 % H) with
    | none =>
      have hsome : m.get ((s k).1 % W) ((s k).2 % H)
          = some (m.data ((s k).1 % W) ((s k).2 % H)) :=
        Map.get_of_lt (Nat.mod_lt (s k).1 hW) (Nat.mod_lt (s k).2 hH)
      rw [hk] at hsome
      cases hsome
    | some t =>
      cases t with
      | Empty =>
        obtain ⟨hx, hy, -⟩ := Map.get_eq_some hk
        refine ⟨1, ⟨fun a b =>
          if a = (s k).1 % W ∧ b = (s k).2 % H then Tile.Food else m.data a b⟩, ?_⟩
        unfold createFoodFrom
        rw [hk]
        exact Map.set_of_lt hx hy
      | Snake =>
        obtain ⟨fuel, m', hm⟩ := ih (k + 1)
          (by rw [show k + 1 + d = k + (d + 1) by omega]; exact h)
        refine ⟨fuel + 1, m', ?_⟩
        unfold createFoodFrom
        rw [hk]
        exact hm
      | Food =>
        obtain ⟨fuel, m', hm⟩ := ih (k + 1)
          (by rw [show k + 1 + d = k + (d + 1) by omega]; exact h)
        refine ⟨fuel + 1, m', ?_⟩
        unfold createFoodFrom
        rw [hk]
        exact hm

end CreateFood

namespace Game

variable {W H : Nat}

theorem move_snake_oob {g : Game W H} (s : Nat → Nat × Nat) (fuel : Nat)
    {sn₂ : Snake} {m₂ : Map W H}
    (hcut : (g.snake.forward).cut_tail g.map = some (sn₂, m₂))
    (hb : sn₂.in_bounds m₂ = false) :
    g.move_snake s fuel = some ⟨m₂, sn₂, State.GameOver⟩ := by
  unfold move_snake
  rw [hcut]
  simp [hb]

theorem move_snake_snake {g : Game W H} (s : Nat → Nat × Nat) (fuel : Nat)
    {sn₂ : Snake} {m₂ m₃ : Map W H}
    (hcut : (g.snake.forward).cut_tail g.map = some (sn₂, m₂))
    (hb : sn₂.in_bounds m₂ = true)
    (ht : sn₂.touching_tile m₂ = some Tile.Snake)
    (hp : sn₂.place_head m₂ = some m₃) :
    g.move_snake s fuel = some ⟨m₃, sn₂, State.GameOver⟩ := by
  unfold move_snake
  rw [hcut]
  simp [hb, ht, hp]

theorem move_snake_empty {g : Game W H} (s : Nat → Nat × Nat) (fuel : Nat)
    {sn₂ : Snake} {m₂ m₃ : Map W H}
    (hcut : (g.snake.forward).cut_tail g.map = some (sn₂, m₂))
    (hb : sn₂.in_bounds m₂ = true)
    (ht : sn₂.touching_tile m₂ = some Tile.Empty)
    (hp : sn₂.place_head m₂ = some m₃) :
    g.move_snake s fuel = some ⟨m₃, sn₂, g.state⟩ := by
  unfold move_snake
  rw [hcut]
  simp [hb, ht, hp]

theorem move_snake_food_inv {g g' : Game W H} {s : Nat → Nat × Nat} {fuel : Nat}
    {sn₂ : Snake} {m₂ : Map W H}
    (hcut : (g.snake.forward).cut_tail g.map = some (sn₂, m₂))
    (hb : sn₂.in_bounds m₂ = true)
    (ht : sn₂.touching_tile m₂ = some Tile.Food)
    (hmove : g.move_snake s fuel = some g') :
    ∃ m₃ m₄, createFood m₂ s fuel = some m₃
      ∧ Snake.place_head { sn₂ with size := sn₂.size + 1 } m₃ = some m₄
      ∧ g' = ⟨m₄, { sn₂ with size := sn₂.size + 1 }, g.state⟩ := by
  unfold move_snake at hmove
  rw [hcut] at hmove
  simp only [hb, ht, if_true] at hmove
  split at hmove
  · cases hmove
  · rename_i m₃ hcf
    split at hmove
    · cases hmove
    · rename_i m₄ hp
      exact ⟨m₃, m₄, hcf, hp, (Option.some.inj hmove).symm⟩

theorem move_snake_state {g g' : Game W H} {s : Nat → Nat × Nat} {fuel : Nat}
    (h : g.move_snake s fuel = some g') :
    g'.state = g.state ∨ g'.state = State.GameOver := by
  unfold move_snake at h
  repeat' split at h
  all_goals cases h
  all_goals first
    | exact Or.inl rfl
    | exact Or.inr rfl

end Game

namespace Snake

theorem new_x (x y n : Nat) : (Snake.new x y n).x = (x : Int) := rfl

theorem new_y (x y n : Nat) : (Snake.new x y n).y = (y : Int) := rfl

end Snake

namespace Game

variable {W H : Nat}

theorem place_then_food_shape {m₀ m₁ m₂ : Map W H}
    {s : Nat → Nat × Nat} {fuel : Nat}
    (hW : W < 2 ^ 64) (hH : H < 2 ^ 64)
    (hp : (Snake.new (W / 2) (H / 2) INITIAL_SNAKE_SIZE).place_head m₀ = some m₁)
    (hcf : createFood m₁ s fuel = some m₂) :
    W / 2 < W ∧ H / 2 < H ∧ m₂.data (W / 2) (H / 2) = Tile.Snake := by
  unfold Snake.place_head at hp
  rw [Snake.new_x, Snake.new_y, usizeOfIsize_natCast (show W / 2 < 2 ^ 64 by omega),
    usizeOfIsize_natCast (show H / 2 < 2 ^ 64 by omega)] at hp
  obtain ⟨hWlt, hHlt, -⟩ := Map.set_eq_some hp
  have hd₁ : m₁.data (W / 2) (H / 2) = Tile.Snake := Map.set_data_self hp
  obtain ⟨fx, fy, hfx, hfy, hE, hsetF⟩ :=
    createFoodFrom_eq_some (show createFoodFrom m₁ s 0 fuel = some m₂ from hcf)
  have hne : ¬(W / 2 = fx ∧ H / 2 = fy) := by
    intro hc
    rw [hc.1, hc.2] at hd₁
    rw [hd₁] at hE
    cases hE
  refine ⟨hWlt, hHlt, ?_⟩
  rw [Map.set_data_other hsetF hne]
  exact hd₁

theorem fresh_shape {g : Game W H} {s : Nat → Nat × Nat} {fuel : Nat}
    (hW : W < 2 ^ 64) (hH : H < 2 ^ 64)
    (h : Game.new W H s fuel = some g ∨ ∃ g₀ : Game W H, g₀.restart s fuel = some g) :
    g.snake = Snake.new (W / 2) (H / 2) INITIAL_SNAKE_SIZE
      ∧ g.state = State.Paused
      ∧ W / 2 < W ∧ H / 2 < H
      ∧ g.map.data (W / 2) (H / 2) = Tile.Snake := by
  rcases h with h | ⟨g₀, h⟩
  · unfold Game.new at h
    split at h
    · cases h
    · rename_i m₁ hp
      split at h
      · cases h
      · rename_i m₂ hcf
        cases h
        obtain ⟨h₁, h₂, h₃⟩ := place_then_food_shape hW hH hp hcf
        exact ⟨rfl, rfl, h₁, h₂, h₃⟩
  · unfold Game.restart at h
    split at h
    · cases h
    · rename_i m₁ hp
      split at h
      · cases h
      · rename_i m₂ hcf
        cases h
        obtain ⟨h₁, h₂, h₃⟩ := place_then_food_shape hW hH hp hcf
        exact ⟨rfl, rfl, h₁, h₂, h₃⟩

end Game

/-! ### Claim theorems -/

/-- C6: `Direction.opposite` is symmetric (`a.opposite b = b.opposite a` for
all pairs, `None` included), `Left.opposite Right` and `Up.opposite Down` are
true, and `d.opposite d` is false for every cardinal direction, with the
single exception `None.opposite None`, which is true. -/
theorem c6_opposite_symm_none_edge :
    (∀ a b : Direction, a.opposite b = b.opposite a)
      ∧ Direction.Left.opposite Direction.Right = true
      ∧ Direction.Up.opposite Direction.Down = true
      ∧ Direction.Left.opposite Direction.Left = false
      ∧ Direction.Right.opposite Direction.Right = false
      ∧ Direction.Up.opposite Direction.Up = false
      ∧ Direction.Down.opposite Direction.Down = false
      ∧ Direction.None.opposite Direction.None = true := by
  refine ⟨?_, rfl, rfl, rfl, rfl, rfl, rfl, rfl⟩
  intro a b
  cases a <;> cases b <;> rfl

/-- C7: `turn` sets the snake's facing direction to `dir` when `dir` does not
oppose the current direction, silently leaves the direction unchanged when it
does, and in either case changes no other field of the snake. -/
theorem c7_turn_spec (sn : Snake) (d : Direction) :
    (sn.turn d).head = sn.head ∧ (sn.turn d).size = sn.size
      ∧ (sn.turn d).tail = sn.tail
      ∧ (sn.turn d).dir = (if sn.dir.opposite d = true then sn.dir else d) := by
  unfold Snake.turn
  split <;> simp_all

/-- C8: for a snake whose trail length equals its target size, one `forward`
followed by one `cut_tail` leaves the trail length unchanged: `forward`
appends the pre-move head to the end of the trail and `cut_tail` removes
exactly the oldest entry, because the trail length has reached the target
size. -/
theorem c8_trail_length_preserved {W H : Nat} (sn sn' : Snake) (m m' : Map W H)
    (hlen : sn.tail.length = sn.size)
    (h : (sn.forward).cut_tail m = some (sn', m')) :
    sn'.tail.length = sn.size
      ∧ sn'.tail = (sn.tail ++ [(usizeOfIsize sn.x, usizeOfIsize sn.y)]).drop 1 := by
  obtain ⟨-, -, -, hcase⟩ := Snake.cut_tail_eq_some h
  rcases hcase with ⟨c, rest, hcons, htail, -⟩ | ⟨hlt, -, -⟩
  · rw [Snake.forward_tail] at hcons
    have hdrop : sn'.tail = (sn.tail ++ [(usizeOfIsize sn.x, usizeOfIsize sn.y)]).drop 1 := by
      rw [htail, hcons]
      rfl
    refine ⟨?_, hdrop⟩
    rw [hdrop, List.length_drop, List.length_append, List.length_singleton]
    omega
  · rw [Snake.forward_tail, Snake.forward_size] at hlt
    rw [List.length_append, List.length_singleton] at hlt
    omega

/-- Concrete instantiation of C8: a size-1 snake at `(1, 0)` with trail
`[(0, 0)]` on a 3 × 3 map keeps trail length 1 over one
`forward` + `cut_tail` cycle. -/
def snC8 : Snake := ⟨(1, 0), Direction.Right, 1, [(0, 0)]⟩

theorem c8_trail_length_preserved_witness :
    ∃ sn' : Snake, ∃ m' : Map 3 3,
      (snC8.forward).cut_tail (Map.new 3 3) = some (sn', m')
        ∧ sn'.tail.length = snC8.size := by
  have hs : ((snC8.forward).cut_tail (Map.new 3 3)).isSome = true := by decide
  obtain ⟨p, hp⟩ := Option.isSome_iff_exists.mp hs
  exact ⟨p.1, p.2, hp, (c8_trail_length_preserved snC8 p.1 (Map.new 3 3) p.2 rfl hp).1⟩

/-- C5: a snake whose trail has reached its target size and whose next head
cell is exactly the oldest trail cell does not game-over on that tick:
`cut_tail` frees the cell before `touching_tile` reads it, so the collision
check sees `Empty` and the state is unchanged. -/
theorem c5_no_false_self_collision {W H : Nat} (g : Game W H)
    (s : Nat → Nat × Nat) (fuel : Nat) (c : Nat × Nat)
    (hlen : g.snake.tail.length = g.snake.size)
    (hhd : g.snake.tail.head? = some c)
    (hcx : g.snake.x + g.snake.dir.x = (c.1 : Int))
    (hcy : g.snake.y + g.snake.dir.y = (c.2 : Int))
    (hxW : c.1 < W) (hyH : c.2 < H)
    (hW64 : W ≤ 2 ^ 64) (hH64 : H ≤ 2 ^ 64) :
    ∃ g', g.move_snake s fuel = some g' ∧ g'.state = g.state := by
  obtain ⟨rest, htl⟩ : ∃ rest, g.snake.tail = c :: rest := by
    cases hc : g.snake.tail with
    | nil => rw [hc] at hhd; cases hhd
    | cons c₀ rest =>
      rw [hc] at hhd
      exact ⟨rest, by rw [Option.some.inj hhd]⟩
  have htl' : (g.snake.forward).tail
      = c :: (rest ++ [(usizeOfIsize g.snake.x, usizeOfIsize g.snake.y)]) := by
    rw [Snake.forward_tail, htl]
    rfl
  have hge : (g.snake.forward).size ≤ (g.snake.forward).tail.length := by
    rw [Snake.forward_size, Snake.forward_tail, List.length_append]
    omega
  have hset : g.map.set c.1 c.2 Tile.Empty
      = some ⟨fun a b => if a = c.1 ∧ b = c.2 then Tile.Empty else g.map.data a b⟩ :=
    Map.set_of_lt hxW hyH
  have hcut := Snake.cut_tail_cons htl' hge hset
  set sn₂ : Snake :=
    { g.snake.forward with
      tail := rest ++ [(usizeOfIsize g.snake.x, usizeOfIsize g.snake.y)] } with hsn₂
  set m₂ : Map W H :=
    ⟨fun a b => if a = c.1 ∧ b = c.2 then Tile.Empty else g.map.data a b⟩ with hm₂
  have hx2 : sn₂.x = (c.1 : Int) := hcx
  have hy2 : sn₂.y = (c.2 : Int) := hcy
  have hucx : usizeOfIsize sn₂.x = c.1 := by
    rw [hx2, usizeOfIsize_natCast (by omega)]
  have hucy : usizeOfIsize sn₂.y = c.2 := by
    rw [hy2, usizeOfIsize_natCast (by omega)]
  have hb : sn₂.in_bounds m₂ = true := by
    rw [Snake.in_bounds_iff, hucx, hucy, hx2, hy2]
    exact ⟨Int.natCast_nonneg _, Int.natCast_nonneg _, hxW, hyH⟩
  have ht : sn₂.touching_tile m₂ = some Tile.Empty := by
    rw [Snake.touching_tile_of_in_bounds hb, hucx, hucy]
    have : m₂.data c.1 c.2 = Tile.Empty := by
      rw [hm₂]
      simp
    rw [this]
  have hp := Snake.place_head_of_in_bounds hb
  exact ⟨_, Game.move_snake_empty s fuel hcut hb ht hp, rfl⟩

/-- Concrete instantiation of C5: a size-2 snake at `(1, 0)` facing `Left`
with trail `[(0, 0), (1, 0)]` moves onto its about-to-be-freed tail cell
`(0, 0)` without a game-over. -/
def gC5 : Game 3 3 :=
  ⟨⟨fun a b => if b = 0 ∧ (a = 0 ∨ a = 1) then Tile.Snake else Tile.Empty⟩,
   ⟨(1, 0), Direction.Left, 2, [(0, 0), (1, 0)]⟩,
   State.Running⟩

theorem c5_no_false_self_collision_witness :
    ∃ g' : Game 3 3, gC5.move_snake (fun _ => (0, 0)) 0 = some g'
      ∧ g'.state = gC5.state := by
  exact c5_no_false_self_collision gC5 (fun _ => (0, 0)) 0 (0, 0) rfl rfl
    (by decide) (by decide) (by decide) (by decide) (by norm_num) (by norm_num)

/-- C3: once the state is `GameOver` it remains `GameOver` under any number
of subsequent `move_snake` calls (whatever samples and fuel each call uses);
`turn_snake` and `game_over` also leave the state `GameOver`; only `restart`
leaves it, by resetting the state to `Paused`. -/
theorem c3_game_over_terminal {W H : Nat} (g : Game W H)
    (picks : Nat → (Nat → Nat × Nat) × Nat) (n : Nat)
    (h : g.state = State.GameOver) :
    (∀ g', iterMoves g picks n = some g' → g'.state = State.GameOver)
      ∧ (∀ d, (g.turn_snake d).state = State.GameOver)
      ∧ (g.game_over).state = State.GameOver
      ∧ (∀ s fuel g'', g.restart s fuel = some g'' → g''.state = State.Paused) := by
  refine ⟨?_, fun _ => h, rfl, ?_⟩
  · induction n with
    | zero =>
      intro g' hg'
      rw [show iterMoves g picks 0 = some g from rfl] at hg'
      cases hg'
      exact h
    | succ n ih =>
      intro g' hg'
      unfold iterMoves at hg'
      split at hg'
      · cases hg'
      · rename_i gn hgn
        rcases Game.move_snake_state hg' with h₁ | h₁
        · rw [h₁]
          exact ih gn hgn
        · exact h₁
  · intro s fuel g'' hre
    unfold Game.restart at hre
    repeat' split at hre
    all_goals cases hre
    rfl

/-- Concrete instantiation of C3: a `GameOver` game still reports `GameOver`
after two further `move_snake` calls. -/
def gC3 : Game 3 3 := ⟨Map.new 3 3, ⟨(0, 0), Direction.Right, 3, []⟩, State.GameOver⟩

theorem c3_game_over_terminal_witness :
    ∃ g' : Game 3 3,
      iterMoves gC3 (fun _ => (fun _ => (0, 0), 1)) 2 = some g'
        ∧ g'.state = State.GameOver := by
  have hs : (iterMoves gC3 (fun _ => (fun _ => (0, 0), 1)) 2).isSome = true := by decide
  obtain ⟨g', hg'⟩ := Option.isSome_iff_exists.mp hs
  exact ⟨g', hg',
    (c3_game_over_terminal gC3 (fun _ => (fun _ => (0, 0), 1)) 2 rfl).1 g' hg'⟩

/-- C10: on a freshly constructed (`Game.new`) or restarted (`restart`) game
the direction is still `None`; calling `move_snake` before any turn keeps the
head on its own cell, which already holds `Tile.Snake` from head placement,
so the collision check reads `Snake` and the state becomes `GameOver` on the
very first tick.  The bounds `W, H < 2 ^ 64` reflect the `usize` dimensions
of the Rust grid. -/
theorem c10_first_tick_game_over {W H : Nat} (g : Game W H)
    (s s' : Nat → Nat × Nat) (fuel fuel' : Nat)
    (hW : W < 2 ^ 64) (hH : H < 2 ^ 64)
    (h : Game.new W H s fuel = some g ∨ ∃ g₀ : Game W H, g₀.restart s fuel = some g) :
    ∃ g', g.move_snake s' fuel' = some g' ∧ g'.state = State.GameOver := by
  obtain ⟨hsn, -, hW2, hH2, hdata⟩ := Game.fresh_shape hW hH h
  have hcut : (g.snake.forward).cut_tail g.map = some (g.snake.forward, g.map) := by
    apply Snake.cut_tail_skip
    rw [Snake.forward_tail, Snake.forward_size, hsn]
    simp [Snake.new, INITIAL_SNAKE_SIZE]
  have hxf : (g.snake.forward).x = ((W / 2 : Nat) : Int) := by
    show (g.snake.forward).head.1 = _
    rw [Snake.forward_head, hsn]
    simp [Snake.new, Direction.x]
  have hyf : (g.snake.forward).y = ((H / 2 : Nat) : Int) := by
    show (g.snake.forward).head.2 = _
    rw [Snake.forward_head, hsn]
    simp [Snake.new, Direction.y]
  have hb : (g.snake.forward).in_bounds g.map = true := by
    rw [Snake.in_bounds_iff, hxf, hyf]
    refine ⟨Int.natCast_nonneg _, Int.natCast_nonneg _, ?_, ?_⟩
    · rw [usizeOfIsize_natCast (show W / 2 < 2 ^ 64 by omega)]
      exact hW2
    · rw [usizeOfIsize_natCast (show H / 2 < 2 ^ 64 by omega)]
      exact hH2
  have ht : (g.snake.forward).touching_tile g.map = some Tile.Snake := by
    rw [Snake.touching_tile_of_in_bounds hb, hxf, hyf,
      usizeOfIsize_natCast (show W / 2 < 2 ^ 64 by omega),
      usizeOfIsize_natCast (show H / 2 < 2 ^ 64 by omega), hdata]
  have hp := Snake.place_head_of_in_bounds hb
  exact ⟨_, Game.move_snake_snake s' fuel' hcut hb ht hp, rfl⟩

theorem c10_first_tick_game_over_witness :
    ∃ g g' : Game 3 3, Game.new 3 3 (fun _ => (0, 0)) 1 = some g
      ∧ g.move_snake (fun _ => (0, 0)) 1 = some g'
      ∧ g'.state = State.GameOver := by
  have hs : (Game.new 3 3 (fun _ => (0, 0)) 1).isSome = true := by decide
  obtain ⟨g, hg⟩ := Option.isSome_iff_exists.mp hs
  obtain ⟨g', hg', hst⟩ := c10_first_tick_game_over g (fun _ => (0, 0)) (fun _ => (0, 0))
    1 1 (by norm_num) (by norm_num) (Or.inl hg)
  exact ⟨g, g', hg, hg', hst⟩

/-- Concrete game refuting part of C1: a 3 × 3 game whose snake (head
`(0, 0)`, size 2, trail `[(2, 2), (0, 1)]`) runs into the snake cell
`(1, 0)`. -/
def gC1 : Game 3 3 :=
  ⟨⟨fun a b =>
      if a = 2 ∧ b = 2 then Tile.Snake
      else if a = 0 ∧ b = 1 then Tile.Snake
      else if a = 0 ∧ b = 0 then Tile.Snake
      else if a = 1 ∧ b = 0 then Tile.Snake
      else Tile.Empty⟩,
   ⟨(0, 0), Direction.Right, 2, [(2, 2), (0, 1)]⟩,
   State.Running⟩

/-- C1 counterexample: on this self-collision `move_snake` sets the state to
`GameOver`, but the grid is NOT left in its pre-move configuration (cell
`(2, 2)` changes from `Snake` to `Empty`, freed by `cut_tail`), and the cell
at the new head position `(1, 0)` does hold `Tile.Snake` after the call
(`place_head` is executed in the self-collision branch). -/
theorem c1_counterexample :
    Option.map Game.state (gC1.move_snake (fun _ => (0, 0)) 0) = some State.GameOver
      ∧ gC1.map.data 2 2 = Tile.Snake
      ∧ Option.map (fun g => g.map.data 2 2) (gC1.move_snake (fun _ => (0, 0)) 0)
          = some Tile.Empty
      ∧ Option.map (fun g => g.map.data 1 0) (gC1.move_snake (fun _ => (0, 0)) 0)
          = some Tile.Snake := by
  decide

/-- C1 (amended): on an in-bounds self-collision `move_snake` sets the state
to `GameOver` and leaves the grid in its post-`cut_tail` configuration:
`place_head` IS executed, but it writes `Tile.Snake` to the head cell, which
already held `Tile.Snake` (that is why the move collided), so the grid
content is unchanged from the configuration the collision check saw.  The
head cell therefore still records `Snake`, and the cell freed by `cut_tail`
may differ from the pre-move grid. -/
theorem c1_self_collision_grid {W H : Nat} (g g' : Game W H)
    (s : Nat → Nat × Nat) (fuel : Nat) (sn₂ : Snake) (m₂ : Map W H)
    (hcut : (g.snake.forward).cut_tail g.map = some (sn₂, m₂))
    (hb : sn₂.in_bounds m₂ = true)
    (ht : sn₂.touching_tile m₂ = some Tile.Snake)
    (hmove : g.move_snake s fuel = some g') :
    g'.state = State.GameOver ∧ ∀ a b, g'.map.data a b = m₂.data a b := by
  have hp := Snake.place_head_of_in_bounds hb
  have hms := Game.move_snake_snake s fuel hcut hb ht hp
  rw [hmove] at hms
  cases Option.some.inj hms
  refine ⟨rfl, ?_⟩
  have hsnake : m₂.data (usizeOfIsize sn₂.x) (usizeOfIsize sn₂.y) = Tile.Snake := by
    have hv := Snake.touching_tile_of_in_bounds hb
    rw [ht] at hv
    exact (Option.some.inj hv).symm
  intro a b
  show (if a = usizeOfIsize sn₂.x ∧ b = usizeOfIsize sn₂.y then Tile.Snake
    else m₂.data a b) = m₂.data a b
  split
  · rename_i hc
    rw [hc.1, hc.2, hsnake]
  · rfl

/-- Intermediate snake of the `gC1` tick, after `forward` and `cut_tail`. -/
def sn2C1 : Snake := ⟨(1, 0), Direction.Right, 2, [(0, 1), (0, 0)]⟩

/-- Intermediate map of the `gC1` tick, after `cut_tail` freed `(2, 2)`. -/
def m2C1 : Map 3 3 :=
  ⟨fun a b => if a = 2 ∧ b = 2 then Tile.Empty else gC1.map.data a b⟩

theorem c1_self_collision_grid_witness :
    ∃ g' : Game 3 3, gC1.move_snake (fun _ => (0, 0)) 0 = some g'
      ∧ g'.state = State.GameOver ∧ ∀ a b, g'.map.data a b = m2C1.data a b := by
  have hcut : (gC1.snake.forward).cut_tail gC1.map = some (sn2C1, m2C1) := rfl
  have hs : (gC1.move_snake (fun _ => (0, 0)) 0).isSome = true := by decide
  obtain ⟨g', hg'⟩ := Option.isSome_iff_exists.mp hs
  obtain ⟨h₁, h₂⟩ := c1_self_collision_grid gC1 g' (fun _ => (0, 0)) 0 sn2C1 m2C1
    hcut (by decide) (by decide) hg'
  exact ⟨g', hg', h₁, h₂⟩

/-- Concrete game refuting part of C2: a 3 × 3 game whose snake (head
`(2, 0)`, size 2, trail `[(0, 0), (1, 0)]`) exits the right edge. -/
def gC2 : Game 3 3 :=
  ⟨⟨fun a b => if b = 0 ∧ (a = 0 ∨ a = 1 ∨ a = 2) then Tile.Snake else Tile.Empty⟩,
   ⟨(2, 0), Direction.Right, 2, [(0, 0), (1, 0)]⟩,
   State.Running⟩

/-- C2 counterexample: on this out-of-bounds move `move_snake` sets the
state to `GameOver`, but a grid write DOES occur: cell `(0, 0)` changes from
`Snake` to `Empty`, freed by `cut_tail` before the bounds check. -/
theorem c2_counterexample :
    Option.map Game.state (gC2.move_snake (fun _ => (0, 0)) 0) = some State.GameOver
      ∧ gC2.map.data 0 0 = Tile.Snake
      ∧ Option.map (fun g => g.map.data 0 0) (gC2.move_snake (fun _ => (0, 0)) 0)
          = some Tile.Empty := by
  decide

/-- C2 (amended): when the head moves out of bounds (`x < 0`, `x ≥ W`,
`y < 0` or `y ≥ H`), `move_snake` transitions to `GameOver` and performs no
write for the new head position: the resulting grid is exactly the
post-`cut_tail` grid, so the only possible change is the oldest trail cell
freed by `cut_tail` before the bounds check.  The `2 ^ 64` bounds reflect
the `isize` range of the Rust head coordinates. -/
theorem c2_out_of_bounds_no_head_write {W H : Nat} (g g' : Game W H)
    (s : Nat → Nat × Nat) (fuel : Nat) (sn₂ : Snake) (m₂ : Map W H)
    (hcut : (g.snake.forward).cut_tail g.map = some (sn₂, m₂))
    (hoob : g.snake.x + g.snake.dir.x < 0 ∨ (W : Int) ≤ g.snake.x + g.snake.dir.x
      ∨ g.snake.y + g.snake.dir.y < 0 ∨ (H : Int) ≤ g.snake.y + g.snake.dir.y)
    (hx64 : g.snake.x + g.snake.dir.x < 2 ^ 64)
    (hy64 : g.snake.y + g.snake.dir.y < 2 ^ 64)
    (hmove : g.move_snake s fuel = some g') :
    g'.state = State.GameOver ∧ ∀ a b, g'.map.data a b = m₂.data a b := by
  have hhead := (Snake.cut_tail_eq_some hcut).1
  have hxeq : sn₂.x = g.snake.x + g.snake.dir.x := by
    show sn₂.head.1 = _
    rw [hhead]
    rfl
  have hyeq : sn₂.y = g.snake.y + g.snake.dir.y := by
    show sn₂.head.2 = _
    rw [hhead]
    rfl
  have hb : sn₂.in_bounds m₂ = false := by
    cases hbv : sn₂.in_bounds m₂ with
    | false => rfl
    | true =>
      exfalso
      obtain ⟨h0x, h0y, hux, huy⟩ := Snake.in_bounds_iff.mp hbv
      rw [hxeq] at h0x hux
      rw [hyeq] at h0y huy
      rw [usizeOfIsize_toNat h0x hx64] at hux
      rw [usizeOfIsize_toNat h0y hy64] at huy
      omega
  have hms := Game.move_snake_oob s fuel hcut hb
  rw [hmove] at hms
  cases Option.some.inj hms
  exact ⟨rfl, fun a b => rfl⟩

/-- Intermediate snake of the `gC2` tick, after `forward` and `cut_tail`. -/
def sn2C2 : Snake := ⟨(3, 0), Direction.Right, 2, [(1, 0), (2, 0)]⟩

/-- Intermediate map of the `gC2` tick, after `cut_tail` freed `(0, 0)`. -/
def m2C2 : Map 3 3 :=
  ⟨fun a b => if a = 0 ∧ b = 0 then Tile.Empty else gC2.map.data a b⟩

theorem c2_out_of_bounds_no_head_write_witness :
    ∃ g' : Game 3 3, gC2.move_snake (fun _ => (0, 0)) 0 = some g'
      ∧ g'.state = State.GameOver ∧ ∀ a b, g'.map.data a b = m2C2.data a b := by
  have hcut : (gC2.snake.forward).cut_tail gC2.map = some (sn2C2, m2C2) := rfl
  have hs : (gC2.move_snake (fun _ => (0, 0)) 0).isSome = true := by decide
  obtain ⟨g', hg'⟩ := Option.isSome_iff_exists.mp hs
  obtain ⟨h₁, h₂⟩ := c2_out_of_bounds_no_head_write gC2 g' (fun _ => (0, 0)) 0
    sn2C2 m2C2 hcut (by decide) (by decide) (by decide) hg'
  exact ⟨g', hg', h₁, h₂⟩

/-- C4: for a game whose grid holds exactly one Food tile, if the head after
`forward` + `cut_tail` is in bounds and lands on that Food tile, then
`move_snake` increases the snake's target size by exactly 1 and places
exactly one new Food tile on a cell that was Empty when `create_food`
sampled it, leaving the grid with exactly one Food tile in total (the eaten
one is overwritten by `place_head`). -/
theorem c4_eat_food_counts {W H : Nat} (g g' : Game W H)
    (s : Nat → Nat × Nat) (fuel : Nat) (sn₂ : Snake) (m₂ : Map W H)
    (hcount : g.map.foodCount = 1)
    (hcut : (g.snake.forward).cut_tail g.map = some (sn₂, m₂))
    (hb : sn₂.in_bounds m₂ = true)
    (ht : sn₂.touching_tile m₂ = some Tile.Food)
    (hmove : g.move_snake s fuel = some g') :
    g'.snake.size = g.snake.size + 1
      ∧ g'.map.foodCount = 1
      ∧ ∃ fx fy, fx < W ∧ fy < H ∧ m₂.data fx fy = Tile.Empty
          ∧ g'.map.data fx fy = Tile.Food := by
  obtain ⟨m₃, m₄, hcf, hp, hg'⟩ := Game.move_snake_food_inv hcut hb ht hmove
  subst hg'
  obtain ⟨hhead, hdir, hsize, hcase⟩ := Snake.cut_tail_eq_some hcut
  obtain ⟨h0x, h0y, hux, huy⟩ := Snake.in_bounds_iff.mp hb
  have hfood₂ : m₂.data (usizeOfIsize sn₂.x) (usizeOfIsize sn₂.y) = Tile.Food := by
    have hv := Snake.touching_tile_of_in_bounds hb
    rw [ht] at hv
    exact (Option.some.inj hv).symm
  have hc₂ : m₂.foodCount = 1 := by
    have hge1 : 1 ≤ m₂.foodCount := Map.foodCount_pos hux huy hfood₂
    rcases hcase with ⟨c, rest, hcons, htail, hset⟩ | ⟨-, -, hmap⟩
    · have hfc := Map.foodCount_set hset
      rw [hcount] at hfc
      rw [if_neg (show ¬Tile.Empty = Tile.Food from fun hc => Tile.noConfusion hc)] at hfc
      by_cases hcf' : g.map.data c.1 c.2 = Tile.Food
      · rw [if_pos hcf'] at hfc
        omega
      · rw [if_neg hcf'] at hfc
        omega
    · rw [hmap]
      exact hcount
  obtain ⟨fx, fy, hfx, hfy, hE, hsetF⟩ :=
    createFoodFrom_eq_some (show createFoodFrom m₂ s 0 fuel = some m₃ from hcf)
  have hc₃ : m₃.foodCount = 2 := by
    have hfc := Map.foodCount_set hsetF
    rw [hc₂, hE,
      if_neg (show ¬Tile.Empty = Tile.Food from fun hc => Tile.noConfusion hc),
      if_pos rfl] at hfc
    omega
  have hneq : ¬(usizeOfIsize sn₂.x = fx ∧ usizeOfIsize sn₂.y = fy) := by
    intro hc
    rw [hc.1, hc.2, hE] at hfood₂
    cases hfood₂
  have hfood₃ : m₃.data (usizeOfIsize sn₂.x) (usizeOfIsize sn₂.y) = Tile.Food := by
    rw [Map.set_data_other hsetF hneq]
    exact hfood₂
  have hp' : m₃.set (usizeOfIsize sn₂.x) (usizeOfIsize sn₂.y) Tile.Snake = some m₄ := hp
  have hc₄ : m₄.foodCount = 1 := by
    have hfc := Map.foodCount_set hp'
    rw [hc₃, hfood₃, if_pos rfl,
      if_neg (show ¬Tile.Snake = Tile.Food from fun hc => Tile.noConfusion hc)] at hfc
    omega
  refine ⟨?_, hc₄, fx, fy, hfx, hfy, hE, ?_⟩
  · show sn₂.size + 1 = g.snake.size + 1
    rw [hsize, Snake.forward_size]
  · show m₄.data fx fy = Tile.Food
    have hneq' : ¬(fx = usizeOfIsize sn₂.x ∧ fy = usizeOfIsize sn₂.y) := by
      intro hc
      exact hneq ⟨hc.1.symm, hc.2.symm⟩
    rw [Map.set_data_other hp' hneq']
    exact Map.set_data_self hsetF

/-- Concrete instantiation of C4: a 3 × 3 game with the single Food at
`(0, 0)` and a size-1 snake at `(1, 0)` facing `Left`. -/
def gC4 : Game 3 3 :=
  ⟨⟨fun a b =>
      if a = 0 ∧ b = 0 then Tile.Food
      else if b = 0 ∧ (a = 1 ∨ a = 2) then Tile.Snake
      else Tile.Empty⟩,
   ⟨(1, 0), Direction.Left, 1, [(2, 0)]⟩,
   State.Running⟩

/-- Intermediate snake of the `gC4` tick, after `forward` and `cut_tail`. -/
def sn2C4 : Snake := ⟨(0, 0), Direction.Left, 1, [(1, 0)]⟩

/-- Intermediate map of the `gC4` tick, after `cut_tail` freed `(2, 0)`. -/
def m2C4 : Map 3 3 :=
  ⟨fun a b => if a = 2 ∧ b = 0 then Tile.Empty else gC4.map.data a b⟩

theorem c4_eat_food_counts_witness :
    ∃ g' : Game 3 3, gC4.move_snake (fun _ => (1, 1)) 1 = some g'
      ∧ g'.snake.size = gC4.snake.size + 1
      ∧ g'.map.foodCount = 1
      ∧ ∃ fx fy, fx < 3 ∧ fy < 3 ∧ m2C4.data fx fy = Tile.Empty
          ∧ g'.map.data fx fy = Tile.Food := by
  have hcut : (gC4.snake.forward).cut_tail gC4.map = some (sn2C4, m2C4) := rfl
  have hs : (gC4.move_snake (fun _ => (1, 1)) 1).isSome = true := by decide
  obtain ⟨g', hg'⟩ := Option.isSome_iff_exists.mp hs
  obtain ⟨h₁, h₂, h₃⟩ := c4_eat_food_counts gC4 g' (fun _ => (1, 1)) 1 sn2C4 m2C4
    (by decide) hcut (by decide) (by decide) hg'
  exact ⟨g', hg', h₁, h₂, h₃⟩

/-- C9: for every map with at least one Empty cell, whenever the sample
stream eventually proposes an Empty cell (an event of probability 1 for
uniform rejection sampling as long as an Empty cell exists), `create_food`
terminates — at the first such proposal — sets exactly that previously-Empty
cell to Food, and leaves every other cell unchanged. -/
theorem c9_create_food_terminates {W H : Nat} (m : Map W H) (s : Nat → Nat × Nat)
    (hempty : ∃ x y, x < W ∧ y < H ∧ m.data x y = Tile.Empty)
    (hhit : ∃ k, m.get ((s k).1 % W) ((s k).2 % H) = some Tile.Empty) :
    ∃ fuel m' fx fy, createFood m s fuel = some m'
      ∧ fx < W ∧ fy < H ∧ m.data fx fy = Tile.Empty
      ∧ m'.data fx fy = Tile.Food
      ∧ ∀ a b, ¬(a = fx ∧ b = fy) → m'.data a b = m.data a b := by
  obtain ⟨k, hk⟩ := hhit
  obtain ⟨fuel, m', hm⟩ := createFoodFrom_terminates k 0 (by simpa using hk)
  obtain ⟨fx, fy, hfx, hfy, hE, hset⟩ := createFoodFrom_eq_some hm
  exact ⟨fuel, m', fx, fy, hm, hfx, hfy, hE, Map.set_data_self hset,
    fun a b hab => Map.set_data_other hset hab⟩

theorem c9_create_food_terminates_witness :
    ∃ fuel : Nat, ∃ m' : Map 2 2, ∃ fx fy : Nat,
      createFood (Map.new 2 2) (fun _ => (0, 0)) fuel = some m'
        ∧ fx < 2 ∧ fy < 2 ∧ (Map.new 2 2).data fx fy = Tile.Empty
        ∧ m'.data fx fy = Tile.Food
        ∧ ∀ a b, ¬(a = fx ∧ b = fy) → m'.data a b = (Map.new 2 2).data a b := by
  exact c9_create_food_terminates (Map.new 2 2) (fun _ => (0, 0))
    ⟨0, 0, by decide, by decide, rfl⟩ ⟨0, by decide⟩

end RustSnake
